import Mathlib

/-!
Verification of the repository fleet synchronizer and git-status engine
(`ms.services.repos.RepoService` and the porcelain parsing helpers of
`ms_cli.cli`), shallowly embedded in Lean.

External process execution (`ms.platform.process.run`), the `Result`
wrapper (`ms.core.result`) and the console (`ms.output.console`) are the
component boundary: they are modelled as oracles / traces, following the
Process Runner contract of the specification (stdout on exit 0, a
structured failure carrying exit code and stderr otherwise; never raises).
-/

namespace MsSpec

/-! ## Python string primitives (List Char based) -/

/-- Whitespace test used by Python `str.strip` / `str.lstrip`. -/
def pyIsSpace (c : Char) : Bool := c.isWhitespace

/-- Python `s.strip()` on a character list. -/
def stripL (s : List Char) : List Char :=
  ((s.dropWhile pyIsSpace).reverse.dropWhile pyIsSpace).reverse

/-- Python `s.strip()` on a `String`. -/
def pstrip (s : String) : String := (stripL s.toList).asString

/-- Python `s.splitlines()` restricted to the `\n` separator: a trailing
newline produces no trailing empty line. -/
def splitlinesAux : List Char → List Char → List (List Char)
  | [], acc => if acc.isEmpty then [] else [acc.reverse]
  | c :: rest, acc =>
    if c = '\n' then acc.reverse :: splitlinesAux rest []
    else splitlinesAux rest (c :: acc)

def splitlines (s : List Char) : List (List Char) := splitlinesAux s []

/-- Python `ln.rstrip("\n")`. -/
def rstripNl (s : List Char) : List Char :=
  (s.reverse.dropWhile (fun c => c = '\n')).reverse

/-- First occurrence of substring `pat` in `s`: `some (before, after)`
with `pat` removed, `none` when absent (Python `s.split(pat, 1)`). -/
def splitOnFirstSub (s pat : List Char) : Option (List Char × List Char) :=
  match s with
  | [] => if pat.isEmpty then some ([], []) else none
  | c :: rest =>
    if pat.isPrefixOf (c :: rest) then some ([], (c :: rest).drop pat.length)
    else
      match splitOnFirstSub rest pat with
      | some (l, r) => some (c :: l, r)
      | none => none

/-- The part of `s` before the first occurrence of `pat` (all of `s` when
`pat` is absent): Python `s.split(pat, 1)[0]`. -/
def takeUntilSub (s pat : List Char) : List Char :=
  match splitOnFirstSub s pat with
  | some (l, _) => l
  | none => s

/-! ## Porcelain status parsing (`ms_cli.cli`) -/

/-- One change entry from `ln` (a nonempty porcelain body line):
`??`-lines are special-cased, lines shorter than 4 characters are
dropped, otherwise `(ln[:2], ln[3:])`. (Loop body of
`_parse_git_porcelain`.) -/
def porcelainEntry (ln : List Char) : Option (String × String) :=
  match ln with
  | '?' :: '?' :: ' ' :: rest => some ("??", rest.asString)
  | _ =>
    if ln.length < 4 then none
    else some ((ln.take 2).asString, (ln.drop 3).asString)

/-- `ms_cli.cli._parse_git_porcelain`: returns `(branch_line, entries)`. -/
def _parse_git_porcelain (status : String) : String × List (String × String) :=
  let lines := ((splitlines status.toList).filter
      (fun ln => !(stripL ln).isEmpty)).map rstripNl
  match lines with
  | [] => ("", [])
  | branch :: rest => (branch.asString, rest.filterMap porcelainEntry)

/-- `ms_cli.cli._parse_branch_line`: returns `(local_branch, upstream)`. -/
def _parse_branch_line (branchLine : String) : String × Option String :=
  let s0 := stripL branchLine.toList
  let s1 := if ['#', '#'].isPrefixOf s0 then (s0.drop 2).dropWhile pyIsSpace else s0
  let s2 := stripL (takeUntilSub s1 [' ', '['])
  match splitOnFirstSub s2 ['.', '.', '.'] with
  | some (l, r) => ((stripL l).asString, some ((stripL r).asString))
  | none => (s2.asString, none)

/-- Leftmost match of the regex `\[([^\]]+)\]`: the captured group of the
first bracketed nonempty run of non-bracket characters. -/
def bracketGroup : List Char → Option (List Char)
  | [] => none
  | c :: rest =>
    if c = '[' then
      let inner := rest.takeWhile (fun d => d ≠ ']')
      let after := rest.drop inner.length
      if inner.isEmpty then bracketGroup rest
      else
        match after with
        | ']' :: _ => some inner
        | _ => bracketGroup rest
    else bracketGroup rest

def digitsToNat (ds : List Char) : Nat :=
  ds.foldl (fun a c => a * 10 + (c.toNat - '0'.toNat)) 0

/-- Leftmost match of `key\s+(\d+)` inside `s`: the literal `key`
followed by at least one whitespace character and at least one digit;
the digit run, maximal, is the captured number. -/
def numAfterKey (key : List Char) : List Char → Option Nat
  | [] => none
  | c :: rest =>
    if key.isPrefixOf (c :: rest) then
      let tail := (c :: rest).drop key.length
      let ws := tail.takeWhile pyIsSpace
      let digs := (tail.drop ws.length).takeWhile Char.isDigit
      if ws.isEmpty || digs.isEmpty then numAfterKey key rest
      else some (digitsToNat digs)
    else numAfterKey key rest

/-- `ms_cli.cli._ahead_behind`: ahead/behind counts from the bracketed
suffix of the branch header line; `(0, 0)` when absent. -/
def _ahead_behind (branchLine : String) : Nat × Nat :=
  match bracketGroup branchLine.toList with
  | none => (0, 0)
  | some inside =>
    ((numAfterKey ['a', 'h', 'e', 'a', 'd'] inside).getD 0,
     (numAfterKey ['b', 'e', 'h', 'i', 'n', 'd'] inside).getD 0)

/-- Untracked-file count over parsed entries (`ms_cli.cli`, status
rendering: entries whose code is `??`). -/
def untracked_count (entries : List (String × String)) : Nat :=
  (entries.filter (fun e => e.1 = "??")).length

/-- A status is clean exactly when there are zero change entries
(`has_worktree = bool(entries)` in `ms_cli.cli`; `GitStatus.is_clean`). -/
def is_clean (entries : List (String × String)) : Bool := entries.isEmpty

/-! ## The process boundary

Modelled from the spec: `ms.core.result` (`Ok`/`Err` tagged result) and
`ms.platform.process.run` (Process Runner, spec section 4.1) are not under
`src/`; per the contract, a run returns captured stdout on exit 0 and a
structured failure carrying the exit code and stderr otherwise, and never
raises on non-zero exit. -/

structure ProcErr where
  exitCode : Int
  stderr : String
deriving DecidableEq

/-- Modelled from the spec: the `Ok`/`Err` result wrapper of
`ms.core.result`. -/
inductive Result (α ε : Type) where
  | Ok (value : α)
  | Err (error : ε)
deriving DecidableEq

abbrev ProcResult := Result String ProcErr

def isErr {α ε : Type} : Result α ε → Bool
  | .Ok _ => false
  | .Err _ => true

/-- Modelled from the spec: console styles of `ms.output.console` used by
`RepoService` (the console is a line trace in this embedding). -/
inductive Style where
  | ERROR
  | WARNING
  | DIM
deriving DecidableEq

abbrev ConsoleLine := String × Style

/-! ## RepoService data types (`ms.services.repos`) -/

inductive RepoErrorKind where
  | gh_missing
  | not_authenticated
  | sync_failed
deriving DecidableEq

structure RepoError where
  kind : RepoErrorKind
  message : String
  hint : Option String := none
deriving DecidableEq

structure RepoRef where
  org : String
  name : String
  url : String
  default_branch : Option String
  archived : Bool
deriving DecidableEq

structure RepoLockEntry where
  org : String
  name : String
  url : String
  default_branch : Option String
  head_sha : Option String
deriving DecidableEq

/-- The external git/gh subprocess invocations `RepoService` can issue. -/
inductive GitCall where
  | clone (url dest : String)
  | fetchPrune (dest : String)
  | pullFfOnly (dest : String)
  | statusPorcelain (dest : String)
  | revParseAbbrevHead (dest : String)
  | revParseHead (dest : String)
  | ghAuthStatus
  | ghRepoList (org : String) (limit : Nat)
deriving DecidableEq

/-- Mutating calls: `git clone`, `git fetch`, `git pull`. -/
def GitCall.isMutating : GitCall → Bool
  | .clone _ _ => true
  | .fetchPrune _ => true
  | .pullFfOnly _ => true
  | _ => false

/-- Oracle for one repository destination: what the filesystem checks and
each git subprocess invocation site of `_sync_repo` observe or return.
Each site runs at most once per `_sync_repo` call. -/
structure RepoWorld where
  destExists : Bool
  cloneRes : ProcResult
  hasGit : Bool
  statusRes : ProcResult
  branchRes : ProcResult
  headRes : ProcResult
  fetchRes : ProcResult
  pullRes : ProcResult
deriving DecidableEq

/-- `RepoService._is_dirty`: truthiness of stripped porcelain stdout;
`False` when the status query fails. -/
def _is_dirty (w : RepoWorld) : Bool :=
  match w.statusRes with
  | .Ok stdout => !(pstrip stdout).isEmpty
  | .Err _ => false

/-- `RepoService._current_branch`: stripped stdout of
`git rev-parse --abbrev-ref HEAD`, `None` on failure or empty output. -/
def _current_branch (w : RepoWorld) : Option String :=
  match w.branchRes with
  | .Ok stdout => if (pstrip stdout).isEmpty then none else some (pstrip stdout)
  | .Err _ => none

/-- `RepoService._head_sha`: stripped stdout of `git rev-parse HEAD`,
`None` on failure or empty output. -/
def _head_sha (w : RepoWorld) : Option String :=
  match w.headRes with
  | .Ok stdout => if (pstrip stdout).isEmpty then none else some (pstrip stdout)
  | .Err _ => none

/-- `RepoService._dest_dir_for_repo`. -/
def _dest_dir_for_repo (root org repo : String) : String :=
  if org = "open-control" then root ++ "/open-control/" ++ repo
  else root ++ "/midi-studio/" ++ repo

/-- Python truthiness of an `Optional[str]`. -/
def optTruthy : Option String → Bool
  | some s => !s.isEmpty
  | none => false

/-- The guard `repo.default_branch and current_branch and
current_branch != repo.default_branch` of `_sync_repo`. -/
def branchGuard (db cb : Option String) : Bool :=
  optTruthy db && optTruthy cb && decide (cb ≠ db)

/-- Result of one `_sync_repo` call: the lock entry (`none` on clone
failure), the subprocess calls issued and the console lines printed. -/
structure SyncRepoOut where
  entry : Option RepoLockEntry
  calls : List GitCall
  lines : List ConsoleLine
deriving DecidableEq

/-- `RepoService._sync_repo`, with subprocess and console traces. -/
def _sync_repo (repo : RepoRef) (dest : String) (dryRun : Bool)
    (w : RepoWorld) : SyncRepoOut :=
  let o := repo.org
  let n := repo.name
  let ls0 : List ConsoleLine :=
    if w.destExists then [] else [("clone " ++ o ++ "/" ++ n ++ " -> " ++ dest, Style.DIM)]
  let cs0 : List GitCall :=
    if w.destExists || dryRun then [] else [GitCall.clone repo.url dest]
  if !w.destExists && !dryRun && isErr w.cloneRes then
    { entry := none, calls := cs0,
      lines := ls0 ++ [("git clone failed: " ++ o ++ "/" ++ n, Style.ERROR)] }
  else if !w.hasGit then
    { entry := some { org := o, name := n, url := repo.url,
                      default_branch := repo.default_branch, head_sha := none },
      calls := cs0,
      lines := ls0 ++ [("skip (not a git repo): " ++ dest, Style.WARNING)] }
  else if _is_dirty w then
    { entry := some { org := o, name := n, url := repo.url,
                      default_branch := repo.default_branch,
                      head_sha := if dryRun then none else _head_sha w },
      calls := (cs0 ++ [GitCall.statusPorcelain dest]) ++
        (if dryRun then [] else [GitCall.revParseHead dest]),
      lines := ls0 ++ [("skip dirty repo: " ++ dest, Style.WARNING)] }
  else if branchGuard repo.default_branch (_current_branch w) then
    let cbs := (_current_branch w).getD ""
    let dbs := repo.default_branch.getD ""
    { entry := some { org := o, name := n, url := repo.url,
                      default_branch := repo.default_branch,
                      head_sha := if dryRun then none else _head_sha w },
      calls := (cs0 ++ [GitCall.statusPorcelain dest, GitCall.revParseAbbrevHead dest]) ++
        (if dryRun then [] else [GitCall.revParseHead dest]),
      lines := ls0 ++
        [("skip (on branch " ++ cbs ++ ", default is " ++ dbs ++ "): " ++ dest, Style.WARNING)] }
  else
    { entry := some { org := o, name := n, url := repo.url,
                      default_branch := repo.default_branch,
                      head_sha := if dryRun then none else _head_sha w },
      calls := (cs0 ++ [GitCall.statusPorcelain dest, GitCall.revParseAbbrevHead dest]) ++
        (if dryRun then []
         else [GitCall.fetchPrune dest, GitCall.pullFfOnly dest, GitCall.revParseHead dest]),
      lines := (ls0 ++ [("update " ++ o ++ "/" ++ n, Style.DIM)]) ++
        ((if !dryRun && isErr w.fetchRes
          then [("git fetch failed: " ++ dest, Style.WARNING)] else []) ++
         (if !dryRun && isErr w.pullRes
          then [("git pull --ff-only failed: " ++ dest, Style.WARNING)] else [])) }

/-! ## JSON values and the catalog listing (`_list_org_repos`) -/

/-- A decoded JSON document (the value `json.loads` produces). -/
inductive Json where
  | null
  | bool (b : Bool)
  | num (n : Int)
  | str (s : String)
  | arr (items : List Json)
  | obj (fields : List (String × Json))

/-- Python dict lookup on a decoded JSON object (`json.loads` keeps the
last binding for a duplicated key). -/
def jget (fields : List (String × Json)) (k : String) : Option Json :=
  ((fields.filter (fun p => p.1 = k)).getLast?).map (fun p => p.2)

/-- Python `bool()` truthiness of a decoded JSON value. -/
def pyBool : Json → Bool
  | .null => false
  | .bool b => b
  | .num n => n ≠ 0
  | .str s => !s.isEmpty
  | .arr items => !items.isEmpty
  | .obj fields => !fields.isEmpty

/-- A Python exception escaping the code (uncaught). -/
inductive PyExn where
  | attributeError (attr : String)
deriving DecidableEq

/-- A Python computation: a value, or an uncaught exception. -/
inductive PyResult (α : Type) where
  | ok (a : α)
  | exn (e : PyExn)
deriving DecidableEq

/-- One iteration of the `for item_d in raw_list` loop of
`_list_org_repos`: `none` when the item is skipped (`continue`),
`some` when a `RepoRef` is appended. A non-object item raises
`AttributeError` at `item_d.get("name")` (the `cast` to
`list[dict[str, Any]]` has no runtime effect). -/
def parseItem (org : String) (j : Json) : PyResult (Option RepoRef) :=
  match j with
  | .obj fields =>
    let name := jget fields "name"
    let url := jget fields "url"
    let isArchived := pyBool ((jget fields "isArchived").getD (Json.bool false))
    let defaultBranch : Option String :=
      match jget fields "defaultBranchRef" with
      | some (.obj d) =>
        match jget d "name" with
        | some (.str s) => if s.isEmpty then none else some s
        | _ => none
      | _ => none
    match name with
    | some (.str n) =>
      if n.isEmpty then .ok none
      else
        match url with
        | some (.str u) =>
          if u.isEmpty then .ok none
          else .ok (some { org := org, name := n, url := u,
                           default_branch := defaultBranch, archived := isArchived })
        | _ => .ok none
    | _ => .ok none
  | _ => .exn (.attributeError "get")

/-- The whole item loop of `_list_org_repos`; the first non-object item
raises before any later item is examined. -/
def parseRepoList (org : String) : List Json → PyResult (List RepoRef)
  | [] => .ok []
  | j :: rest =>
    match parseItem org j with
    | .exn e => .exn e
    | .ok r =>
      match parseRepoList org rest with
      | .exn e => .exn e
      | .ok rs => .ok (match r with | some x => x :: rs | none => rs)

/-- The environment of one whole sync pass: `which("gh")`, the
`gh auth status` run, per-organization `gh repo list` stdout (given
already decoded: `.Ok none` models stdout that is not valid JSON), and
the per-destination repository oracle. -/
structure World where
  ghOnPath : Bool
  authRes : ProcResult
  listRes : String → Nat → Result (Option Json) ProcErr
  repoW : String → String → RepoWorld

/-- Output of `_list_org_repos`: the repository list (`none` on listing
failure) and the console diagnostics printed. -/
structure ListOut where
  repos : Option (List RepoRef)
  lines : List ConsoleLine
deriving DecidableEq

/-- `RepoService._list_org_repos`. -/
def _list_org_repos (w : World) (org : String) (limit : Nat) : PyResult ListOut :=
  match w.listRes org limit with
  | .Err e =>
    let s := pstrip e.stderr
    .ok { repos := none,
          lines := [("gh repo list failed for " ++ org, Style.ERROR)] ++
            (if s.isEmpty then [] else [(s, Style.DIM)]) }
  | .Ok none =>
    .ok { repos := none,
          lines := [("gh repo list returned invalid JSON for " ++ org, Style.ERROR)] }
  | .Ok (some (Json.arr items)) =>
    match parseRepoList org items with
    | .exn e => .exn e
    | .ok rs => .ok { repos := some rs, lines := [] }
  | .Ok (some _) =>
    .ok { repos := none,
          lines := [("gh repo list returned unexpected JSON for " ++ org, Style.ERROR)] }

/-! ## The sync pass (`RepoService.sync_all`) -/

def ORGS : List String := ["open-control", "petitechose-midi-studio"]

/-- The accumulating state of one sync pass: the lock entries, the
`has_errors` flag, and the subprocess/console traces. -/
structure Acc where
  lock : List RepoLockEntry
  hasErrors : Bool
  calls : List GitCall
  lines : List ConsoleLine
deriving DecidableEq

/-- Body of the inner `for repo in repos` loop of `sync_all`. -/
def syncRepoStep (root : String) (dryRun : Bool) (w : World) (acc : Acc)
    (repo : RepoRef) : Acc :=
  if repo.archived then acc
  else
    let dest := _dest_dir_for_repo root repo.org repo.name
    let out := _sync_repo repo dest dryRun (w.repoW repo.org repo.name)
    { lock := acc.lock ++ (match out.entry with | some e => [e] | none => []),
      hasErrors := acc.hasErrors || out.entry.isNone,
      calls := acc.calls ++ out.calls,
      lines := acc.lines ++ out.lines }

/-- Body of the outer `for org in self.ORGS` loop of `sync_all`. -/
def syncOrgStep (root : String) (limit : Nat) (dryRun : Bool) (w : World)
    (acc : Acc) (org : String) : PyResult Acc :=
  match _list_org_repos w org limit with
  | .exn e => .exn e
  | .ok lo =>
    let acc1 : Acc :=
      { acc with calls := acc.calls ++ [GitCall.ghRepoList org limit],
                 lines := acc.lines ++ lo.lines }
    match lo.repos with
    | none => .ok { acc1 with hasErrors := true }
    | some repos => .ok (repos.foldl (syncRepoStep root dryRun w) acc1)

def foldOrgs (root : String) (limit : Nat) (dryRun : Bool) (w : World) :
    Acc → List String → PyResult Acc
  | acc, [] => .ok acc
  | acc, org :: rest =>
    match syncOrgStep root limit dryRun w acc org with
    | .exn e => .exn e
    | .ok acc2 => foldOrgs root limit dryRun w acc2 rest

/-- Output of a sync pass: the `Result` returned, the accumulated lock,
the lockfile write (`none` means the file on disk is untouched), and
the subprocess/console traces. -/
structure SyncOut where
  result : Result Unit RepoError
  lock : List RepoLockEntry
  lockWritten : Option (List RepoLockEntry)
  calls : List GitCall
  lines : List ConsoleLine
deriving DecidableEq

/-- `RepoService.sync_all`. -/
def sync_all (w : World) (root : String) (limit : Nat) (dryRun : Bool) :
    PyResult SyncOut :=
  if !w.ghOnPath then
    .ok { result := .Err { kind := .gh_missing, message := "gh: missing",
                           hint := some "install GitHub CLI (gh)" },
          lock := [], lockWritten := none, calls := [], lines := [] }
  else if isErr w.authRes then
    .ok { result := .Err { kind := .not_authenticated,
                           message := "gh auth: not logged in",
                           hint := some "run `gh auth login`" },
          lock := [], lockWritten := none,
          calls := [GitCall.ghAuthStatus], lines := [] }
  else
    match foldOrgs root limit dryRun w
        { lock := [], hasErrors := false,
          calls := [GitCall.ghAuthStatus], lines := [] } ORGS with
    | .exn e => .exn e
    | .ok acc =>
      .ok { result :=
              if acc.hasErrors then
                .Err { kind := .sync_failed,
                       message := "some repositories failed to sync" }
              else .Ok (),
            lock := acc.lock,
            lockWritten := if dryRun then none else some acc.lock,
            calls := acc.calls,
            lines := acc.lines }

/-! ## Claim theorems and witnesses -/

/-- Concrete catalog entry used by witnesses. -/
def repoBridge : RepoRef :=
  { org := "open-control", name := "bridge", url := "https://x/bridge",
    default_branch := some "main", archived := false }

/-- A destination with a dirty working tree. -/
def dirtyWorld : RepoWorld :=
  { destExists := true, cloneRes := .Ok "", hasGit := true,
    statusRes := .Ok "M  foo.txt\n", branchRes := .Ok "main\n",
    headRes := .Ok "abcd1234\n", fetchRes := .Ok "", pullRes := .Ok "" }

/-- A clean destination sitting on branch feature-x while the default
branch is main. -/
def wrongBranchWorld : RepoWorld :=
  { destExists := true, cloneRes := .Ok "", hasGit := true,
    statusRes := .Ok "", branchRes := .Ok "feature-x\n",
    headRes := .Ok "abcd1234\n", fetchRes := .Ok "", pullRes := .Ok "" }

/-- A destination whose status query fails (exit 128) but whose branch
query also fails, so the branch guard passes. -/
def statusErrorWorld : RepoWorld :=
  { destExists := true, cloneRes := .Ok "", hasGit := true,
    statusRes := .Err { exitCode := 128, stderr := "fatal: not a git repository" },
    branchRes := .Err { exitCode := 128, stderr := "fatal" },
    headRes := .Ok "abcd1234\n", fetchRes := .Ok "", pullRes := .Ok "" }

/-- A clean destination whose branch query returns empty output. -/
def unknownBranchWorld : RepoWorld :=
  { destExists := true, cloneRes := .Ok "", hasGit := true,
    statusRes := .Ok "", branchRes := .Ok "\n",
    headRes := .Ok "abcd1234\n", fetchRes := .Ok "", pullRes := .Ok "" }

/-- A clean repository already on the default branch. -/
def cleanWorld : RepoWorld :=
  { destExists := true, cloneRes := .Ok "", hasGit := true,
    statusRes := .Ok "", branchRes := .Ok "main\n",
    headRes := .Ok "abcd1234\n", fetchRes := .Ok "", pullRes := .Ok "" }

def goodBridgeJson : Json :=
  .obj [("name", .str "bridge"), ("url", .str "https://x/bridge"),
    ("isArchived", .bool false), ("defaultBranchRef", .obj [("name", .str "main")])]

/-- A healthy environment: authenticated, one well-formed repository per
organization, clean destinations. -/
def healthyWorld : World :=
  { ghOnPath := true, authRes := .Ok "",
    listRes := fun _ _ => .Ok (some (.arr [goodBridgeJson])),
    repoW := fun _ _ => cleanWorld }

/-- The sync output of a non-crashing pass (arbitrary fallback on an
uncaught exception; used only to state closed witnesses). -/
def outOf (r : PyResult SyncOut) : SyncOut :=
  match r with
  | .ok o => o
  | .exn _ => { result := .Ok (), lock := [], lockWritten := none,
                calls := [], lines := [] }

/-! ### Hard-failure characterization (C2) -/

/-- The catalog listing for `org` fails: the query process exits
non-zero, the response is not valid JSON, or the JSON root is not an
array. -/
def orgListingFails (w : World) (limit : Nat) (org : String) : Bool :=
  match w.listRes org limit with
  | .Err _ => true
  | .Ok none => true
  | .Ok (some (Json.arr _)) => false
  | .Ok (some _) => true

/-- The repositories a successful catalog listing yields for `org`
(empty on failure). -/
def orgRepos (w : World) (limit : Nat) (org : String) : List RepoRef :=
  match w.listRes org limit with
  | .Ok (some (Json.arr items)) =>
    match parseRepoList org items with
    | .ok rs => rs
    | .exn _ => []
  | _ => []

/-- Repository `r` hits a hard clone failure during the pass. -/
def repoCloneFails (w : World) (dryRun : Bool) (r : RepoRef) : Bool :=
  !r.archived && !(w.repoW r.org r.name).destExists && !dryRun &&
    isErr (w.repoW r.org r.name).cloneRes

/-- Zero hard failures during the pass: no organization listing fails
and no considered repository hits a clone failure. -/
def noHardFailureB (w : World) (limit : Nat) (dryRun : Bool) : Bool :=
  !(ORGS.any (fun org => orgListingFails w limit org ||
    (orgRepos w limit org).any (repoCloneFails w dryRun)))

/-- The per-repository lock contribution of one considered repository. -/
def lockEntryFor (w : World) (root : String) (dryRun : Bool) (r : RepoRef) :
    Option RepoLockEntry :=
  if r.archived then none
  else (_sync_repo r (_dest_dir_for_repo root r.org r.name) dryRun
    (w.repoW r.org r.name)).entry

/-- The lock a full pass accumulates, organization by organization. -/
def expectedLock (w : World) (root : String) (limit : Nat) (dryRun : Bool) :
    List RepoLockEntry :=
  (ORGS.map (fun org =>
    (orgRepos w limit org).filterMap (lockEntryFor w root dryRun))).flatten

/-- The healthy catalog but every destination dirty. -/
def dirtyFleetWorld : World :=
  { ghOnPath := true, authRes := .Ok "",
    listRes := fun _ _ => .Ok (some (.arr [goodBridgeJson])),
    repoW := fun _ _ => dirtyWorld }

/-- The healthy catalog but every destination on branch feature-x. -/
def wrongBranchFleetWorld : World :=
  { ghOnPath := true, authRes := .Ok "",
    listRes := fun _ _ => .Ok (some (.arr [goodBridgeJson])),
    repoW := fun _ _ => wrongBranchWorld }

/-- A second presentation of the healthy environment: differs from
`healthyWorld` as a function (it inspects the limit) but observes
identically at limit 200. -/
def healthyWorld2 : World :=
  { ghOnPath := true, authRes := .Ok "",
    listRes := fun _ l =>
      if l = 200 then .Ok (some (.arr [goodBridgeJson]))
      else .Err { exitCode := 1, stderr := "boom" },
    repoW := fun _ _ => cleanWorld }

/-! ### Catalog entry skipping (C5) and the uncaught exception (C8) -/

def Json.isObj : Json → Bool
  | .obj _ => true
  | _ => false

/-- Claim-side keeping rule for one object entry of the catalog array:
kept exactly when it carries a string name and a string URL, both
nonempty; the default branch comes from a `defaultBranchRef` object with
a nonempty string name, the archived flag from the truthiness of
`isArchived`. Non-object entries and entries failing the rule are
skipped. -/
def specObjRef (org : String) (j : Json) : Option RepoRef :=
  match j with
  | .obj fields =>
    match jget fields "name", jget fields "url" with
    | some (.str n), some (.str u) =>
      if n.isEmpty || u.isEmpty then none
      else
        some { org := org, name := n, url := u,
               default_branch :=
                 (match jget fields "defaultBranchRef" with
                  | some (.obj d) =>
                    match jget d "name" with
                    | some (.str s) => if s.isEmpty then none else some s
                    | _ => none
                  | _ => none),
               archived := pyBool ((jget fields "isArchived").getD (.bool false)) }
    | _, _ => none
  | _ => none

/-- Catalog world for the C5 witness: one malformed object entry (numeric
name), one entry with an empty URL, one well-formed entry. -/
def c5ObjWorld : World :=
  { ghOnPath := true, authRes := .Ok "",
    listRes := fun _ _ => .Ok (some (.arr
      [.obj [("name", .num 7), ("url", .str "https://x/seven")],
       .obj [("name", .str "empty"), ("url", .str "")],
       .obj [("name", .str "bridge"), ("url", .str "https://x/bridge"),
             ("isArchived", .bool false),
             ("defaultBranchRef", .obj [("name", .str "main")])]])),
    repoW := fun _ _ => cleanWorld }

/-- Catalog world refuting C5 as stated: the JSON root is a valid array,
but it contains a non-object entry followed by a well-formed entry. -/
def c5BadWorld : World :=
  { ghOnPath := true, authRes := .Ok "",
    listRes := fun _ _ => .Ok (some (.arr
      [.num 1,
       .obj [("name", .str "bridge"), ("url", .str "https://x/bridge")]])),
    repoW := fun _ _ => cleanWorld }

/-- Environment for C8: the catalog response for the first organization
is the JSON array `[1]`. -/
def c8World : World :=
  { ghOnPath := true, authRes := .Ok "",
    listRes := fun _ _ => .Ok (some (.arr [.num 1])),
    repoW := fun _ _ => cleanWorld }

/-! ## Theorems -/

/-! ## Helper lemmas -/

theorem current_branch_nonempty (w : RepoWorld) (cb : String)
    (h : _current_branch w = some cb) : cb.isEmpty = false := by
  unfold _current_branch at h
  cases hb : w.branchRes with
  | Ok s =>
    rw [hb] at h
    by_cases he : (pstrip s).isEmpty = true
    · simp [he] at h
    · simp only [he] at h
      simp only [if_neg, Option.some.injEq, Bool.not_eq_true] at h
      rw [← h]
      exact Bool.not_eq_true _ ▸ he
  | Err e => rw [hb] at h; exact absurd h (by simp)

/-- For a repository whose destination exists as a git repo with a
dirty working tree, the per-repository sync issues no clone, fetch or
pull subprocess, and the recorded lock entry has `head_sha` equal to the
HEAD reported by `git rev-parse HEAD` (`_head_sha`), or `none` under
dry-run. -/
theorem sync_repo_dirty_no_mutation (repo : RepoRef) (dest : String) (dryRun : Bool)
    (w : RepoWorld) (hE : w.destExists = true) (hG : w.hasGit = true)
    (hD : _is_dirty w = true) :
    (∀ c ∈ (_sync_repo repo dest dryRun w).calls, c.isMutating = false) ∧
    (_sync_repo repo dest dryRun w).entry =
      some { org := repo.org, name := repo.name, url := repo.url,
             default_branch := repo.default_branch,
             head_sha := if dryRun then none else _head_sha w } := by
  unfold _sync_repo
  rw [hE, hG, hD]
  cases dryRun <;> simp [GitCall.isMutating]

/-- For a clean repository sitting on a branch different from the
catalog-declared default branch, the per-repository sync issues no
mutating git call, logs a skip warning, and records a lock entry whose
`head_sha` is the current HEAD (`none` under dry-run). -/
theorem sync_repo_wrong_branch (repo : RepoRef) (dest : String) (dryRun : Bool)
    (w : RepoWorld) (db cb : String)
    (hE : w.destExists = true) (hG : w.hasGit = true) (hD : _is_dirty w = false)
    (hdb : repo.default_branch = some db) (hdbne : db ≠ "")
    (hcb : _current_branch w = some cb) (hne : cb ≠ db) :
    (∀ c ∈ (_sync_repo repo dest dryRun w).calls, c.isMutating = false) ∧
    ("skip (on branch " ++ cb ++ ", default is " ++ db ++ "): " ++ dest, Style.WARNING) ∈
      (_sync_repo repo dest dryRun w).lines ∧
    (_sync_repo repo dest dryRun w).entry =
      some { org := repo.org, name := repo.name, url := repo.url,
             default_branch := repo.default_branch,
             head_sha := if dryRun then none else _head_sha w } := by
  have hcbne : cb.isEmpty = false := current_branch_nonempty w cb hcb
  have hdbne2 : db.isEmpty = false := by
    cases hdbe : db.isEmpty with
    | false => rfl
    | true => exact absurd ((String.isEmpty_iff db).mp hdbe) hdbne
  have hguard : branchGuard repo.default_branch (_current_branch w) = true := by
    rw [hdb, hcb]
    simp [branchGuard, optTruthy, hcbne, hdbne2, hne]
  unfold _sync_repo
  rw [hE, hG, hD, hguard, hdb, hcb]
  cases dryRun <;> simp [GitCall.isMutating]

/-- C9: when the porcelain status query fails, `_is_dirty` reports the
repository as clean, so the sync proceeds to the branch check and — when
that passes — to the mutating update, invoking `git fetch --prune` and
`git pull --ff-only` instead of skip-recording the repository. -/
theorem sync_repo_status_error_proceeds (repo : RepoRef) (dest : String)
    (w : RepoWorld) (e : ProcErr)
    (hE : w.destExists = true) (hG : w.hasGit = true)
    (hS : w.statusRes = .Err e)
    (hB : branchGuard repo.default_branch (_current_branch w) = false) :
    _is_dirty w = false ∧
    GitCall.fetchPrune dest ∈ (_sync_repo repo dest false w).calls ∧
    GitCall.pullFfOnly dest ∈ (_sync_repo repo dest false w).calls := by
  have hD : _is_dirty w = false := by unfold _is_dirty; rw [hS]
  refine ⟨hD, ?_, ?_⟩ <;>
    · unfold _sync_repo
      rw [hE, hG, hD, hB]
      simp

/-- Witness for C9 at a concrete status-error repository. -/
theorem sync_repo_status_error_proceeds_witness :
    _is_dirty statusErrorWorld = false ∧
    GitCall.fetchPrune "/ws/open-control/bridge" ∈
      (_sync_repo repoBridge "/ws/open-control/bridge" false statusErrorWorld).calls ∧
    GitCall.pullFfOnly "/ws/open-control/bridge" ∈
      (_sync_repo repoBridge "/ws/open-control/bridge" false statusErrorWorld).calls :=
  sync_repo_status_error_proceeds repoBridge "/ws/open-control/bridge" statusErrorWorld
    { exitCode := 128, stderr := "fatal: not a git repository" }
    rfl rfl rfl (by decide)

/-- C10: when the current-branch query fails or returns empty output,
the non-default-branch guard is bypassed and the clean repository takes
the update path — `git fetch --prune` and `git pull --ff-only` are
invoked — even though the catalog declares a default branch. -/
theorem sync_repo_unknown_branch_updates (repo : RepoRef) (dest : String)
    (w : RepoWorld) (db : String)
    (hE : w.destExists = true) (hG : w.hasGit = true) (hD : _is_dirty w = false)
    (hcb : _current_branch w = none) (_hdb : repo.default_branch = some db) :
    GitCall.fetchPrune dest ∈ (_sync_repo repo dest false w).calls ∧
    GitCall.pullFfOnly dest ∈ (_sync_repo repo dest false w).calls := by
  have hB : branchGuard repo.default_branch (_current_branch w) = false := by
    rw [hcb]
    simp [branchGuard, optTruthy]
  constructor <;>
    · unfold _sync_repo
      rw [hE, hG, hD, hB]
      simp

/-- Witness for C10 at a concrete unknown-branch repository. -/
theorem sync_repo_unknown_branch_updates_witness :
    GitCall.fetchPrune "/ws/open-control/bridge" ∈
      (_sync_repo repoBridge "/ws/open-control/bridge" false unknownBranchWorld).calls ∧
    GitCall.pullFfOnly "/ws/open-control/bridge" ∈
      (_sync_repo repoBridge "/ws/open-control/bridge" false unknownBranchWorld).calls :=
  sync_repo_unknown_branch_updates repoBridge "/ws/open-control/bridge"
    unknownBranchWorld "main" rfl rfl (by decide) (by decide) rfl

/-! ### Dry-run lemmas -/

theorem sync_repo_dry_run (repo : RepoRef) (dest : String) (w : RepoWorld) :
    (∀ c ∈ (_sync_repo repo dest true w).calls, c.isMutating = false) ∧
    (∀ e, (_sync_repo repo dest true w).entry = some e → e.head_sha = none) := by
  unfold _sync_repo
  cases hE : w.destExists <;> cases hG : w.hasGit <;> cases hD : _is_dirty w <;>
    cases hB : branchGuard repo.default_branch (_current_branch w) <;>
      simp [GitCall.isMutating]

theorem syncRepoStep_dry (root : String) (w : World) (acc : Acc) (r : RepoRef)
    (hc : ∀ c ∈ acc.calls, c.isMutating = false)
    (hl : ∀ e ∈ acc.lock, e.head_sha = none) :
    (∀ c ∈ (syncRepoStep root true w acc r).calls, c.isMutating = false) ∧
    (∀ e ∈ (syncRepoStep root true w acc r).lock, e.head_sha = none) := by
  unfold syncRepoStep
  by_cases ha : r.archived = true
  · simp only [ha, if_pos]
    exact ⟨hc, hl⟩
  · simp only [ha, if_neg, Bool.false_eq_true, not_false_iff]
    constructor
    · intro c hmem
      rcases List.mem_append.mp hmem with h1 | h2
      · exact hc c h1
      · exact (sync_repo_dry_run r _ _).1 c h2
    · intro e hmem
      rcases List.mem_append.mp hmem with h1 | h2
      · exact hl e h1
      · cases hent : (_sync_repo r (_dest_dir_for_repo root r.org r.name) true
            (w.repoW r.org r.name)).entry with
        | none => rw [hent] at h2; simp at h2
        | some e2 =>
          rw [hent] at h2
          simp only [List.mem_singleton] at h2
          rw [← h2] at hent
          exact (sync_repo_dry_run r _ _).2 e hent

theorem foldl_syncRepoStep_dry (root : String) (w : World) (repos : List RepoRef)
    (acc : Acc)
    (hc : ∀ c ∈ acc.calls, c.isMutating = false)
    (hl : ∀ e ∈ acc.lock, e.head_sha = none) :
    (∀ c ∈ (repos.foldl (syncRepoStep root true w) acc).calls, c.isMutating = false) ∧
    (∀ e ∈ (repos.foldl (syncRepoStep root true w) acc).lock, e.head_sha = none) := by
  induction repos generalizing acc with
  | nil => exact ⟨hc, hl⟩
  | cons r rest ih =>
    simp only [List.foldl_cons]
    have step := syncRepoStep_dry root w acc r hc hl
    exact ih _ step.1 step.2

theorem syncOrgStep_dry (root : String) (limit : Nat) (w : World) (acc : Acc)
    (org : String) (acc2 : Acc)
    (h : syncOrgStep root limit true w acc org = .ok acc2)
    (hc : ∀ c ∈ acc.calls, c.isMutating = false)
    (hl : ∀ e ∈ acc.lock, e.head_sha = none) :
    (∀ c ∈ acc2.calls, c.isMutating = false) ∧
    (∀ e ∈ acc2.lock, e.head_sha = none) := by
  unfold syncOrgStep at h
  cases hlo : _list_org_repos w org limit with
  | exn e => rw [hlo] at h; exact absurd h (by simp)
  | ok lo =>
    rw [hlo] at h
    dsimp only at h
    have hc1 : ∀ c ∈ acc.calls ++ [GitCall.ghRepoList org limit], c.isMutating = false := by
      intro c hmem
      rcases List.mem_append.mp hmem with h1 | h2
      · exact hc c h1
      · simp only [List.mem_singleton] at h2
        subst h2
        rfl
    cases hrep : lo.repos with
    | none =>
      rw [hrep] at h
      simp only [PyResult.ok.injEq] at h
      subst h
      exact ⟨hc1, hl⟩
    | some repos =>
      rw [hrep] at h
      simp only [PyResult.ok.injEq] at h
      subst h
      exact foldl_syncRepoStep_dry root w repos _ hc1 hl

theorem foldOrgs_dry (root : String) (limit : Nat) (w : World) (orgs : List String)
    (acc : Acc) (acc2 : Acc)
    (h : foldOrgs root limit true w acc orgs = .ok acc2)
    (hc : ∀ c ∈ acc.calls, c.isMutating = false)
    (hl : ∀ e ∈ acc.lock, e.head_sha = none) :
    (∀ c ∈ acc2.calls, c.isMutating = false) ∧
    (∀ e ∈ acc2.lock, e.head_sha = none) := by
  induction orgs generalizing acc with
  | nil =>
    unfold foldOrgs at h
    simp only [PyResult.ok.injEq] at h
    subst h
    exact ⟨hc, hl⟩
  | cons org rest ih =>
    unfold foldOrgs at h
    cases hstep : syncOrgStep root limit true w acc org with
    | exn e => rw [hstep] at h; exact absurd h (by simp)
    | ok accMid =>
      rw [hstep] at h
      have mid := syncOrgStep_dry root limit w acc org accMid hstep hc hl
      exact ih accMid h mid.1 mid.2

/-- C3: a dry-run sync pass issues zero mutating subprocess calls (no
clone, fetch or pull), writes no lockfile (the file on disk is left
unchanged), and every lock entry accumulated during the pass has
`head_sha = none`. -/
theorem sync_all_dry_run_frame (w : World) (root : String) (limit : Nat)
    (out : SyncOut) (h : sync_all w root limit true = .ok out) :
    (∀ c ∈ out.calls, c.isMutating = false) ∧
    out.lockWritten = none ∧
    (∀ e ∈ out.lock, e.head_sha = none) := by
  unfold sync_all at h
  cases hgh : w.ghOnPath with
  | false =>
    rw [hgh] at h
    simp only [Bool.not_false, if_pos, PyResult.ok.injEq] at h
    subst h
    exact ⟨by intro c hc; simp at hc, rfl, by intro e he; simp at he⟩
  | true =>
    rw [hgh] at h
    simp only [Bool.not_true, Bool.false_eq_true, if_neg, not_false_iff] at h
    cases hauth : isErr w.authRes with
    | true =>
      rw [hauth] at h
      simp only [if_pos, PyResult.ok.injEq] at h
      subst h
      refine ⟨?_, rfl, by intro e he; simp at he⟩
      intro c hc
      simp only [List.mem_singleton] at hc
      subst hc
      rfl
    | false =>
      rw [hauth] at h
      simp only [Bool.false_eq_true, if_neg, not_false_iff] at h
      cases hfold : foldOrgs root limit true w
          { lock := [], hasErrors := false,
            calls := [GitCall.ghAuthStatus], lines := [] } ORGS with
      | exn e => rw [hfold] at h; exact absurd h (by simp)
      | ok acc =>
        rw [hfold] at h
        simp only [PyResult.ok.injEq] at h
        subst h
        have base1 : ∀ c ∈ [GitCall.ghAuthStatus], GitCall.isMutating c = false := by
          intro c hc
          simp only [List.mem_singleton] at hc
          subst hc
          rfl
        have base2 : ∀ e ∈ ([] : List RepoLockEntry), e.head_sha = none := by
          intro e he; simp at he
        have main := foldOrgs_dry root limit w ORGS _ acc hfold base1 base2
        exact ⟨main.1, rfl, main.2⟩

theorem sync_repo_entry_isNone (repo : RepoRef) (dest : String) (dryRun : Bool)
    (w : RepoWorld) :
    (_sync_repo repo dest dryRun w).entry.isNone =
      (!w.destExists && !dryRun && isErr w.cloneRes) := by
  unfold _sync_repo
  cases hE : w.destExists <;> cases dryRun <;> cases hC : isErr w.cloneRes <;>
    cases hG : w.hasGit <;> cases hD : _is_dirty w <;>
      cases hB : branchGuard repo.default_branch (_current_branch w) <;>
        simp

theorem foldl_syncRepoStep_spec (root : String) (dryRun : Bool) (w : World)
    (repos : List RepoRef) (acc : Acc) :
    (repos.foldl (syncRepoStep root dryRun w) acc).hasErrors =
      (acc.hasErrors || repos.any (repoCloneFails w dryRun)) ∧
    (repos.foldl (syncRepoStep root dryRun w) acc).lock =
      acc.lock ++ repos.filterMap (lockEntryFor w root dryRun) := by
  induction repos generalizing acc with
  | nil => simp
  | cons r rest ih =>
    simp only [List.foldl_cons, List.any_cons, List.filterMap_cons]
    by_cases ha : r.archived = true
    · have hstep : syncRepoStep root dryRun w acc r = acc := by
        unfold syncRepoStep
        rw [if_pos ha]
      have hfail : repoCloneFails w dryRun r = false := by
        unfold repoCloneFails
        rw [ha]
        simp
      have hent : lockEntryFor w root dryRun r = none := by
        unfold lockEntryFor
        rw [if_pos ha]
      rw [hstep, hfail, hent]
      have := ih acc
      simpa using this
    · have haf : r.archived = false := by
        cases hx : r.archived with
        | true => exact absurd hx ha
        | false => rfl
      have hstep : syncRepoStep root dryRun w acc r =
          { lock := acc.lock ++
              (match (_sync_repo r (_dest_dir_for_repo root r.org r.name) dryRun
                (w.repoW r.org r.name)).entry with
               | some e => [e] | none => []),
            hasErrors := acc.hasErrors ||
              (_sync_repo r (_dest_dir_for_repo root r.org r.name) dryRun
                (w.repoW r.org r.name)).entry.isNone,
            calls := acc.calls ++
              (_sync_repo r (_dest_dir_for_repo root r.org r.name) dryRun
                (w.repoW r.org r.name)).calls,
            lines := acc.lines ++
              (_sync_repo r (_dest_dir_for_repo root r.org r.name) dryRun
                (w.repoW r.org r.name)).lines } := by
        unfold syncRepoStep
        rw [if_neg (by rw [haf]; exact Bool.false_ne_true)]
      have hfail : repoCloneFails w dryRun r =
          (_sync_repo r (_dest_dir_for_repo root r.org r.name) dryRun
            (w.repoW r.org r.name)).entry.isNone := by
        rw [sync_repo_entry_isNone]
        unfold repoCloneFails
        rw [haf]
        simp [Bool.and_assoc]
      have hent : lockEntryFor w root dryRun r =
          (_sync_repo r (_dest_dir_for_repo root r.org r.name) dryRun
            (w.repoW r.org r.name)).entry := by
        unfold lockEntryFor
        rw [if_neg (by rw [haf]; exact Bool.false_ne_true)]
      rw [hstep, hfail, hent]
      rw [(ih _).1, (ih _).2]
      cases hopt : (_sync_repo r (_dest_dir_for_repo root r.org r.name) dryRun
          (w.repoW r.org r.name)).entry <;>
        simp [Bool.or_assoc]

theorem orgListingFails_empty (w : World) (limit : Nat) (org : String)
    (h : orgListingFails w limit org = true) : orgRepos w limit org = [] := by
  unfold orgListingFails at h
  unfold orgRepos
  cases hl : w.listRes org limit with
  | Err e => rfl
  | Ok mj =>
    cases mj with
    | none => rfl
    | some j =>
      cases j with
      | arr items => rw [hl] at h; simp at h
      | null => rfl
      | bool b => rfl
      | num n => rfl
      | str s => rfl
      | obj fields => rfl

theorem list_org_repos_spec (w : World) (org : String) (limit : Nat) (lo : ListOut)
    (h : _list_org_repos w org limit = .ok lo) :
    (lo.repos = none ↔ orgListingFails w limit org = true) ∧
    (∀ rs, lo.repos = some rs → rs = orgRepos w limit org) ∧
    (lo.repos = none → lo.lines ≠ []) := by
  unfold _list_org_repos at h
  unfold orgListingFails orgRepos
  cases hl : w.listRes org limit with
  | Err e =>
    rw [hl] at h
    dsimp only at h
    simp only [PyResult.ok.injEq] at h
    subst h
    dsimp only
    exact ⟨by simp, by simp, by intro _; simp⟩
  | Ok mj =>
    cases mj with
    | none =>
      rw [hl] at h
      dsimp only at h
      simp only [PyResult.ok.injEq] at h
      subst h
      dsimp only
      exact ⟨by simp, by simp, by intro _; simp⟩
    | some j =>
      cases j with
      | arr items =>
        rw [hl] at h
        dsimp only at h
        cases hp : parseRepoList org items with
        | exn e => rw [hp] at h; exact absurd h (by simp)
        | ok rs =>
          rw [hp] at h
          dsimp only at h
          simp only [PyResult.ok.injEq] at h
          subst h
          dsimp only
          rw [hp]
          refine ⟨by simp, ?_, by intro hx; simp at hx⟩
          intro rs2 hrs2
          simp only [Option.some.injEq] at hrs2
          subst hrs2
          rfl
      | null =>
        rw [hl] at h
        dsimp only at h
        simp only [PyResult.ok.injEq] at h
        subst h
        dsimp only
        exact ⟨by simp, by simp, by intro _; simp⟩
      | bool b =>
        rw [hl] at h
        dsimp only at h
        simp only [PyResult.ok.injEq] at h
        subst h
        dsimp only
        exact ⟨by simp, by simp, by intro _; simp⟩
      | num n =>
        rw [hl] at h
        dsimp only at h
        simp only [PyResult.ok.injEq] at h
        subst h
        dsimp only
        exact ⟨by simp, by simp, by intro _; simp⟩
      | str s =>
        rw [hl] at h
        dsimp only at h
        simp only [PyResult.ok.injEq] at h
        subst h
        dsimp only
        exact ⟨by simp, by simp, by intro _; simp⟩
      | obj fields =>
        rw [hl] at h
        dsimp only at h
        simp only [PyResult.ok.injEq] at h
        subst h
        dsimp only
        exact ⟨by simp, by simp, by intro _; simp⟩

theorem syncOrgStep_spec (root : String) (limit : Nat) (dryRun : Bool) (w : World)
    (acc : Acc) (org : String) (accMid : Acc)
    (h : syncOrgStep root limit dryRun w acc org = .ok accMid) :
    accMid.hasErrors = (acc.hasErrors || (orgListingFails w limit org ||
      (orgRepos w limit org).any (repoCloneFails w dryRun))) ∧
    accMid.lock = acc.lock ++
      (orgRepos w limit org).filterMap (lockEntryFor w root dryRun) := by
  unfold syncOrgStep at h
  cases hlo : _list_org_repos w org limit with
  | exn e => rw [hlo] at h; exact absurd h (by simp)
  | ok lo =>
    rw [hlo] at h
    dsimp only at h
    have spec := list_org_repos_spec w org limit lo hlo
    cases hrep : lo.repos with
    | none =>
      rw [hrep] at h
      simp only [PyResult.ok.injEq] at h
      subst h
      have hfails : orgListingFails w limit org = true := spec.1.mp hrep
      have hempty : orgRepos w limit org = [] := orgListingFails_empty w limit org hfails
      rw [hfails, hempty]
      simp
    | some repos =>
      rw [hrep] at h
      simp only [PyResult.ok.injEq] at h
      subst h
      have hok : orgListingFails w limit org = false := by
        cases hx : orgListingFails w limit org with
        | false => rfl
        | true => rw [spec.1.mpr hx] at hrep; exact absurd hrep (by simp)
      have hrepos : repos = orgRepos w limit org := spec.2.1 repos hrep
      have main := foldl_syncRepoStep_spec root dryRun w repos
        { lock := acc.lock, hasErrors := acc.hasErrors,
          calls := acc.calls ++ [GitCall.ghRepoList org limit],
          lines := acc.lines ++ lo.lines }
      rw [main.1, main.2, hok, hrepos]
      simp

theorem foldOrgs_spec (root : String) (limit : Nat) (dryRun : Bool) (w : World)
    (orgs : List String) (acc : Acc) (acc2 : Acc)
    (h : foldOrgs root limit dryRun w acc orgs = .ok acc2) :
    acc2.hasErrors = (acc.hasErrors || orgs.any (fun org =>
      orgListingFails w limit org ||
      (orgRepos w limit org).any (repoCloneFails w dryRun))) ∧
    acc2.lock = acc.lock ++ (orgs.map (fun org =>
      (orgRepos w limit org).filterMap (lockEntryFor w root dryRun))).flatten := by
  induction orgs generalizing acc with
  | nil =>
    unfold foldOrgs at h
    simp only [PyResult.ok.injEq] at h
    subst h
    simp
  | cons org rest ih =>
    unfold foldOrgs at h
    cases hstep : syncOrgStep root limit dryRun w acc org with
    | exn e => rw [hstep] at h; exact absurd h (by simp)
    | ok accMid =>
      rw [hstep] at h
      have mid := syncOrgStep_spec root limit dryRun w acc org accMid hstep
      have tail := ih accMid h
      rw [tail.1, tail.2, mid.1, mid.2]
      simp [Bool.or_assoc, List.append_assoc]

theorem sync_all_acc_spec (w : World) (root : String) (limit : Nat)
    (dryRun : Bool) (out : SyncOut) (h : sync_all w root limit dryRun = .ok out)
    (hgh : w.ghOnPath = true) (hauth : isErr w.authRes = false) :
    (out.result = .Ok () ↔ noHardFailureB w limit dryRun = true) ∧
    out.lock = expectedLock w root limit dryRun := by
  unfold sync_all at h
  rw [hgh, hauth] at h
  simp only [Bool.not_true, Bool.false_eq_true, if_neg, not_false_iff, if_false] at h
  cases hfold : foldOrgs root limit dryRun w
      { lock := [], hasErrors := false,
        calls := [GitCall.ghAuthStatus], lines := [] } ORGS with
  | exn e => rw [hfold] at h; exact absurd h (by simp)
  | ok acc =>
    rw [hfold] at h
    simp only [PyResult.ok.injEq] at h
    subst h
    have spec := foldOrgs_spec root limit dryRun w ORGS _ acc hfold
    constructor
    · cases hErr : acc.hasErrors with
      | false =>
        simp only [hErr, if_neg, Bool.false_eq_true, not_false_iff]
        constructor
        · intro _
          unfold noHardFailureB
          rw [hErr] at spec
          have : ORGS.any (fun org => orgListingFails w limit org ||
              (orgRepos w limit org).any (repoCloneFails w dryRun)) = false := by
            have h1 := spec.1
            simp only [Bool.false_or] at h1
            exact h1.symm
          rw [this]
          rfl
        · intro _
          trivial
      | true =>
        simp only [hErr, if_pos]
        constructor
        · intro hcontr
          exact absurd hcontr (by simp)
        · intro hnf
          rw [hErr] at spec
          unfold noHardFailureB at hnf
          have h1 := spec.1
          simp only [Bool.false_or] at h1
          rw [← h1] at hnf
          simp at hnf
    · rw [spec.2]
      unfold expectedLock
      simp

/-- C2: an authenticated sync pass returns success exactly when zero
hard failures occurred (no catalog-listing failure for an organization
and no clone failure for a considered repository); and the accumulated
lock is precisely the per-repository entries of the successfully
considered repositories, so a clone-failed repository is absent while
all remaining repositories are still processed and recorded. -/
theorem sync_all_success_iff (w : World) (root : String) (limit : Nat)
    (dryRun : Bool) (out : SyncOut) (h : sync_all w root limit dryRun = .ok out)
    (hgh : w.ghOnPath = true) (hauth : isErr w.authRes = false) :
    (out.result = .Ok () ↔ noHardFailureB w limit dryRun = true) ∧
    out.lock = expectedLock w root limit dryRun :=
  sync_all_acc_spec w root limit dryRun out h hgh hauth

/-- Every considered repository whose per-repository sync records an
entry sees that entry in the final lock of the pass. -/
theorem lock_contains_entry (w : World) (root : String) (limit : Nat)
    (dryRun : Bool) (out : SyncOut) (org : String) (r : RepoRef)
    (e : RepoLockEntry)
    (h : sync_all w root limit dryRun = .ok out)
    (hgh : w.ghOnPath = true) (hauth : isErr w.authRes = false)
    (horg : org ∈ ORGS) (hr : r ∈ orgRepos w limit org)
    (harch : r.archived = false)
    (hent : (_sync_repo r (_dest_dir_for_repo root r.org r.name) dryRun
      (w.repoW r.org r.name)).entry = some e) :
    e ∈ out.lock := by
  rw [(sync_all_acc_spec w root limit dryRun out h hgh hauth).2]
  unfold expectedLock
  apply List.mem_flatten.mpr
  refine ⟨(orgRepos w limit org).filterMap (lockEntryFor w root dryRun),
    List.mem_map_of_mem _ horg, ?_⟩
  apply List.mem_filterMap.mpr
  refine ⟨r, hr, ?_⟩
  unfold lockEntryFor
  rw [if_neg (by rw [harch]; exact Bool.false_ne_true)]
  exact hent

/-- C1: for every considered repository whose destination exists as a
git repo with a dirty working tree, the sync pass issues no clone, fetch
or pull subprocess in that repository's per-repository action, and the
lock accumulated by `sync_all` contains an entry for it whose `head_sha`
is the repository's current HEAD as reported by `git rev-parse HEAD`
(`none` under dry-run). -/
theorem sync_all_dirty_repo_protected (w : World) (root : String) (limit : Nat)
    (dryRun : Bool) (out : SyncOut) (org : String) (r : RepoRef)
    (h : sync_all w root limit dryRun = .ok out)
    (hgh : w.ghOnPath = true) (hauth : isErr w.authRes = false)
    (horg : org ∈ ORGS) (hr : r ∈ orgRepos w limit org)
    (harch : r.archived = false)
    (hE : (w.repoW r.org r.name).destExists = true)
    (hG : (w.repoW r.org r.name).hasGit = true)
    (hD : _is_dirty (w.repoW r.org r.name) = true) :
    (∀ c ∈ (_sync_repo r (_dest_dir_for_repo root r.org r.name) dryRun
        (w.repoW r.org r.name)).calls, c.isMutating = false) ∧
    ({ org := r.org, name := r.name, url := r.url,
       default_branch := r.default_branch,
       head_sha := if dryRun then none
         else _head_sha (w.repoW r.org r.name) } : RepoLockEntry) ∈ out.lock := by
  have per := sync_repo_dirty_no_mutation r (_dest_dir_for_repo root r.org r.name)
    dryRun (w.repoW r.org r.name) hE hG hD
  exact ⟨per.1, lock_contains_entry w root limit dryRun out org r _
    h hgh hauth horg hr harch per.2⟩

/-- Witness for C1 at a concrete pass over a dirty repository. -/
theorem sync_all_dirty_repo_protected_witness :
    (∀ c ∈ (_sync_repo repoBridge
        (_dest_dir_for_repo "/ws" repoBridge.org repoBridge.name) false
        (dirtyFleetWorld.repoW repoBridge.org repoBridge.name)).calls,
      c.isMutating = false) ∧
    ({ org := repoBridge.org, name := repoBridge.name, url := repoBridge.url,
       default_branch := repoBridge.default_branch,
       head_sha := if false then none
         else _head_sha (dirtyFleetWorld.repoW repoBridge.org repoBridge.name) } :
      RepoLockEntry) ∈ (outOf (sync_all dirtyFleetWorld "/ws" 200 false)).lock :=
  sync_all_dirty_repo_protected dirtyFleetWorld "/ws" 200 false _ "open-control"
    repoBridge (by rfl) rfl rfl (by decide) (by decide) rfl rfl rfl (by decide)

/-- C4: for every considered repository whose destination exists as a
clean git repo on a branch different from the known catalog-declared
default branch, the sync pass issues zero mutating git calls in that
repository's per-repository action, logs a skip warning there, and the
lock accumulated by `sync_all` contains an entry for it whose `head_sha`
is the repository's current HEAD (`none` under dry-run). -/
theorem sync_all_wrong_branch_skip (w : World) (root : String) (limit : Nat)
    (dryRun : Bool) (out : SyncOut) (org : String) (r : RepoRef) (db cb : String)
    (h : sync_all w root limit dryRun = .ok out)
    (hgh : w.ghOnPath = true) (hauth : isErr w.authRes = false)
    (horg : org ∈ ORGS) (hr : r ∈ orgRepos w limit org)
    (harch : r.archived = false)
    (hE : (w.repoW r.org r.name).destExists = true)
    (hG : (w.repoW r.org r.name).hasGit = true)
    (hD : _is_dirty (w.repoW r.org r.name) = false)
    (hdb : r.default_branch = some db) (hdbne : db ≠ "")
    (hcb : _current_branch (w.repoW r.org r.name) = some cb) (hne : cb ≠ db) :
    (∀ c ∈ (_sync_repo r (_dest_dir_for_repo root r.org r.name) dryRun
        (w.repoW r.org r.name)).calls, c.isMutating = false) ∧
    ("skip (on branch " ++ cb ++ ", default is " ++ db ++ "): " ++
        _dest_dir_for_repo root r.org r.name, Style.WARNING) ∈
      (_sync_repo r (_dest_dir_for_repo root r.org r.name) dryRun
        (w.repoW r.org r.name)).lines ∧
    ({ org := r.org, name := r.name, url := r.url,
       default_branch := r.default_branch,
       head_sha := if dryRun then none
         else _head_sha (w.repoW r.org r.name) } : RepoLockEntry) ∈ out.lock := by
  have per := sync_repo_wrong_branch r (_dest_dir_for_repo root r.org r.name)
    dryRun (w.repoW r.org r.name) db cb hE hG hD hdb hdbne hcb hne
  refine ⟨per.1, ?_, lock_contains_entry w root limit dryRun out org r _
    h hgh hauth horg hr harch per.2.2⟩
  have hline := per.2.1
  simpa using hline

/-- Witness for C4 at a concrete pass over a wrong-branch repository. -/
theorem sync_all_wrong_branch_skip_witness :
    (∀ c ∈ (_sync_repo repoBridge
        (_dest_dir_for_repo "/ws" repoBridge.org repoBridge.name) false
        (wrongBranchFleetWorld.repoW repoBridge.org repoBridge.name)).calls,
      c.isMutating = false) ∧
    ("skip (on branch feature-x, default is main): " ++
        _dest_dir_for_repo "/ws" repoBridge.org repoBridge.name, Style.WARNING) ∈
      (_sync_repo repoBridge
        (_dest_dir_for_repo "/ws" repoBridge.org repoBridge.name) false
        (wrongBranchFleetWorld.repoW repoBridge.org repoBridge.name)).lines ∧
    ({ org := repoBridge.org, name := repoBridge.name, url := repoBridge.url,
       default_branch := repoBridge.default_branch,
       head_sha := if false then none
         else _head_sha (wrongBranchFleetWorld.repoW repoBridge.org repoBridge.name) } :
      RepoLockEntry) ∈ (outOf (sync_all wrongBranchFleetWorld "/ws" 200 false)).lock :=
  sync_all_wrong_branch_skip wrongBranchFleetWorld "/ws" 200 false _ "open-control"
    repoBridge "main" "feature-x" (by rfl) rfl rfl (by decide) (by decide) rfl
    rfl rfl (by decide) rfl (by decide) (by decide) (by decide)

/-- Witness for C2: the healthy concrete pass succeeds and the lock
matches the per-repository entries. -/
theorem sync_all_success_iff_witness :
    ((outOf (sync_all healthyWorld "/ws" 200 false)).result = .Ok () ↔
      noHardFailureB healthyWorld 200 false = true) ∧
    (outOf (sync_all healthyWorld "/ws" 200 false)).lock =
      expectedLock healthyWorld "/ws" 200 false :=
  sync_all_success_iff healthyWorld "/ws" 200 false _ (by rfl) rfl rfl

/-- Witness for C3: a concrete dry-run pass. -/
theorem sync_all_dry_run_frame_witness :
    (∀ c ∈ (outOf (sync_all healthyWorld "/ws" 200 true)).calls, c.isMutating = false) ∧
    (outOf (sync_all healthyWorld "/ws" 200 true)).lockWritten = none ∧
    (∀ e ∈ (outOf (sync_all healthyWorld "/ws" 200 true)).lock, e.head_sha = none) :=
  sync_all_dry_run_frame healthyWorld "/ws" 200 _ (by rfl)

/-! ### Determinism of a pass over an unchanged environment (C6) -/

theorem syncRepoStep_congr (root : String) (dryRun : Bool) (w1 w2 : World)
    (acc : Acc) (r : RepoRef)
    (hrepo : ∀ org name, w1.repoW org name = w2.repoW org name) :
    syncRepoStep root dryRun w1 acc r = syncRepoStep root dryRun w2 acc r := by
  unfold syncRepoStep
  rw [hrepo r.org r.name]

theorem list_org_repos_congr (w1 w2 : World) (org : String) (limit : Nat)
    (hlist : w1.listRes org limit = w2.listRes org limit) :
    _list_org_repos w1 org limit = _list_org_repos w2 org limit := by
  unfold _list_org_repos
  rw [hlist]

theorem syncOrgStep_congr (root : String) (limit : Nat) (dryRun : Bool)
    (w1 w2 : World) (acc : Acc) (org : String)
    (hlist : w1.listRes org limit = w2.listRes org limit)
    (hrepo : ∀ org2 name, w1.repoW org2 name = w2.repoW org2 name) :
    syncOrgStep root limit dryRun w1 acc org =
      syncOrgStep root limit dryRun w2 acc org := by
  unfold syncOrgStep
  rw [list_org_repos_congr w1 w2 org limit hlist]
  have hstep : syncRepoStep root dryRun w1 = syncRepoStep root dryRun w2 :=
    funext (fun a => funext (fun r => syncRepoStep_congr root dryRun w1 w2 a r hrepo))
  rw [hstep]

theorem foldOrgs_congr (root : String) (limit : Nat) (dryRun : Bool)
    (w1 w2 : World) (orgs : List String) (acc : Acc)
    (hlist : ∀ org, w1.listRes org limit = w2.listRes org limit)
    (hrepo : ∀ org name, w1.repoW org name = w2.repoW org name) :
    foldOrgs root limit dryRun w1 acc orgs =
      foldOrgs root limit dryRun w2 acc orgs := by
  induction orgs generalizing acc with
  | nil => rfl
  | cons org rest ih =>
    unfold foldOrgs
    rw [syncOrgStep_congr root limit dryRun w1 w2 acc org (hlist org) hrepo]
    cases syncOrgStep root limit dryRun w2 acc org with
    | exn e => rfl
    | ok acc2 => exact ih acc2

/-- C6: a sync pass is a deterministic function of the environment it
observes; two passes that see the same authentication state, the same
catalog responses (same repository lists in the same order) and the same
per-repository state — no intervening remote or local changes — produce
identical outputs, in particular an identical lockfile. -/
theorem sync_all_deterministic (w1 w2 : World) (root : String) (limit : Nat)
    (dryRun : Bool)
    (hgh : w1.ghOnPath = w2.ghOnPath) (hauth : w1.authRes = w2.authRes)
    (hlist : ∀ org, w1.listRes org limit = w2.listRes org limit)
    (hrepo : ∀ org name, w1.repoW org name = w2.repoW org name) :
    sync_all w1 root limit dryRun = sync_all w2 root limit dryRun ∧
    (outOf (sync_all w1 root limit dryRun)).lockWritten =
      (outOf (sync_all w2 root limit dryRun)).lockWritten := by
  have hmain : sync_all w1 root limit dryRun = sync_all w2 root limit dryRun := by
    unfold sync_all
    rw [hgh, hauth, foldOrgs_congr root limit dryRun w1 w2 ORGS _ hlist hrepo]
  exact ⟨hmain, by rw [hmain]⟩

/-- Witness for C6 at two concrete environment presentations. -/
theorem sync_all_deterministic_witness :
    sync_all healthyWorld2 "/ws" 200 false = sync_all healthyWorld "/ws" 200 false ∧
    (outOf (sync_all healthyWorld2 "/ws" 200 false)).lockWritten =
      (outOf (sync_all healthyWorld "/ws" 200 false)).lockWritten :=
  sync_all_deterministic healthyWorld2 healthyWorld "/ws" 200 false
    rfl rfl (fun _ => rfl) (fun _ _ => rfl)

theorem parseItem_obj (org : String) (fields : List (String × Json)) :
    parseItem org (.obj fields) = .ok (specObjRef org (.obj fields)) := by
  unfold parseItem specObjRef
  dsimp only
  cases hn : jget fields "name" with
  | none =>
    cases hu : jget fields "url" with
    | none => rfl
    | some ju => cases ju <;> rfl
  | some jn =>
    cases jn with
    | str n =>
      cases hu : jget fields "url" with
      | none =>
        cases hne : n.isEmpty <;> simp [hne]
      | some ju =>
        cases ju with
        | str u =>
          cases hne : n.isEmpty <;> cases hue : u.isEmpty <;>
            simp [hne, hue]
        | null => cases hne : n.isEmpty <;> simp [hne]
        | bool b => cases hne : n.isEmpty <;> simp [hne]
        | num m => cases hne : n.isEmpty <;> simp [hne]
        | arr xs => cases hne : n.isEmpty <;> simp [hne]
        | obj fs => cases hne : n.isEmpty <;> simp [hne]
    | null =>
      cases hu : jget fields "url" with
      | none => rfl
      | some ju => cases ju <;> rfl
    | bool b =>
      cases hu : jget fields "url" with
      | none => rfl
      | some ju => cases ju <;> rfl
    | num m =>
      cases hu : jget fields "url" with
      | none => rfl
      | some ju => cases ju <;> rfl
    | arr xs =>
      cases hu : jget fields "url" with
      | none => rfl
      | some ju => cases ju <;> rfl
    | obj fs =>
      cases hu : jget fields "url" with
      | none => rfl
      | some ju => cases ju <;> rfl

theorem parseRepoList_objs (org : String) (items : List Json)
    (hobj : ∀ j ∈ items, j.isObj = true) :
    parseRepoList org items = .ok (items.filterMap (specObjRef org)) := by
  induction items with
  | nil => rfl
  | cons j rest ih =>
    have hj : j.isObj = true := hobj j (by simp)
    cases j with
    | obj fields =>
      unfold parseRepoList
      rw [parseItem_obj org fields,
        ih (fun x hx => hobj x (List.mem_cons_of_mem _ hx))]
      cases hk : specObjRef org (.obj fields) <;>
        simp [List.filterMap_cons, hk]
    | null => exact absurd hj (by simp [Json.isObj])
    | bool b => exact absurd hj (by simp [Json.isObj])
    | num n => exact absurd hj (by simp [Json.isObj])
    | str s => exact absurd hj (by simp [Json.isObj])
    | arr xs => exact absurd hj (by simp [Json.isObj])

/-- C5 (amended): the per-organization catalog listing returns failure
(`none`, with a diagnostic logged) exactly when the query process exits
non-zero, the response is not valid JSON, or the JSON root is not an
array; and for an array all of whose entries are JSON objects, every
entry with a missing, non-string or empty name or URL is silently
skipped while the remaining entries are returned. (As originally
stated — with skipping promised for arbitrary malformed entries — the
claim fails: a non-object entry raises an uncaught exception.) -/
theorem list_org_repos_failure_and_skip (w : World) (org : String) (limit : Nat) :
    (∀ lo, _list_org_repos w org limit = .ok lo →
      ((lo.repos = none ↔ orgListingFails w limit org = true) ∧
       (lo.repos = none → lo.lines ≠ []))) ∧
    (∀ items, w.listRes org limit = .Ok (some (.arr items)) →
      (∀ j ∈ items, j.isObj = true) →
      _list_org_repos w org limit =
        .ok { repos := some (items.filterMap (specObjRef org)), lines := [] }) := by
  constructor
  · intro lo h
    have spec := list_org_repos_spec w org limit lo h
    exact ⟨spec.1, spec.2.2⟩
  · intro items hl hobj
    unfold _list_org_repos
    rw [hl]
    dsimp only
    rw [parseRepoList_objs org items hobj]

/-- Witness for C5 (amended) at a concrete all-object catalog response:
the malformed entries are skipped, the well-formed one is returned. -/
theorem list_org_repos_failure_and_skip_witness :
    _list_org_repos c5ObjWorld "open-control" 200 =
      .ok { repos := some
              [{ org := "open-control", name := "bridge",
                 url := "https://x/bridge", default_branch := some "main",
                 archived := false }],
            lines := [] } := by
  have h := (list_org_repos_failure_and_skip c5ObjWorld "open-control" 200).2
    [.obj [("name", .num 7), ("url", .str "https://x/seven")],
     .obj [("name", .str "empty"), ("url", .str "")],
     .obj [("name", .str "bridge"), ("url", .str "https://x/bridge"),
           ("isArchived", .bool false),
           ("defaultBranchRef", .obj [("name", .str "main")])]]
    rfl (by decide)
  rw [h]
  rfl

/-- Counterexample to C5 as stated: on an array containing the non-object
entry `1`, the listing neither returns the remaining well-formed entry
nor fails with `none` — it raises an uncaught AttributeError (none of the
three stated failure conditions holds: the root is an array). -/
theorem list_org_repos_c5_counterexample :
    _list_org_repos c5BadWorld "open-control" 200 =
      .exn (.attributeError "get") ∧
    orgListingFails c5BadWorld 200 "open-control" = false := by
  constructor
  · rfl
  · rfl

/-- C8 (code bug): a sync pass whose catalog query returns a JSON array
containing a non-object item does not convert the error into a
structured result or console message — `item_d.get("name")` raises
AttributeError and the exception escapes `sync_all` uncaught into the
CLI layer. -/
theorem sync_all_uncaught_exception :
    sync_all c8World "/ws" 200 false = .exn (.attributeError "get") := by
  rfl

/-- C7: parsing the porcelain output
`## main...origin/main [ahead 2, behind 1]\nM  foo.txt\n?? bar.txt\n`
yields branch `main`, ahead 2, behind 1, exactly the two change entries
`("M ", "foo.txt")` and `("??", "bar.txt")` in that order, an untracked
count of 1, and a status that is not clean. -/
theorem porcelain_parse_roundtrip :
    (_parse_git_porcelain
        "## main...origin/main [ahead 2, behind 1]\nM  foo.txt\n?? bar.txt\n").2 =
      [("M ", "foo.txt"), ("??", "bar.txt")] ∧
    (_parse_branch_line
        (_parse_git_porcelain
          "## main...origin/main [ahead 2, behind 1]\nM  foo.txt\n?? bar.txt\n").1).1 =
      "main" ∧
    _ahead_behind
        (_parse_git_porcelain
          "## main...origin/main [ahead 2, behind 1]\nM  foo.txt\n?? bar.txt\n").1 =
      (2, 1) ∧
    untracked_count
        (_parse_git_porcelain
          "## main...origin/main [ahead 2, behind 1]\nM  foo.txt\n?? bar.txt\n").2 =
      1 ∧
    is_clean
        (_parse_git_porcelain
          "## main...origin/main [ahead 2, behind 1]\nM  foo.txt\n?? bar.txt\n").2 =
      false := by
  decide

end MsSpec
